import Mathlib

/-!
Verification development for the GPU vanity-address search engine
(`src/core/vangen.py`).

The Python module is shallowly embedded below.  Machine bytes are `Nat`s
below 256, 32-byte buffers are `List Nat` of length 32 in big-endian order
(matching `int.from_bytes(key32, "big")` / `to_bytes(32, "big")`), and
Python-level exceptions are modelled with `Option`/`Except`.  The external
collaborators (the OpenCL kernel, the Ed25519 library `nacl`, the random
source `secrets`) are parameters of the embedding: the per-round device
outputs are supplied by a `dispatch` oracle, the public-key derivation by a
`derive` function, and the random part of the initial seed by an `entropy`
argument.
-/

/-- Value `ceil(iteration_bits / 8)` truncated by `np.ubyte` (wraps modulo 256),
mirroring `HostSetting.__init__`'s `self.iteration_bytes`. -/
def iterationBytes (bits : Nat) : Nat := ((bits + 7) / 8) % 256

/-- Big-endian byte-list to integer, mirroring `int.from_bytes(key32, "big")`. -/
def bytesToNat (l : List Nat) : Nat := l.foldl (fun acc b => acc * 256 + b) 0

/-- Model of `n.to_bytes(k, "big")`: the `k` big-endian base-256 digits of `n`. -/
def natToBytes : Nat → Nat → List Nat
  | 0, _ => []
  | k + 1, n => natToBytes k (n / 256) ++ [n % 256]

/-- Start index of the Python slice `new_key32[-self.iteration_bytes:]`:
`iteration_bytes` is an `np.ubyte`, and numpy negates unsigned scalars with
wraparound, so the slice start is the nonnegative `(256 - ib) % 256` —
beyond the end of the 32-element array (an empty slice) for every `ib` in
1..224, and index 0 (the whole array) for `ib = 0`. -/
def sliceStart (ib : Nat) : Nat := (256 - ib % 256) % 256

deriving instance DecidableEq for Except

/-- Message of the `OverflowError` raised by `to_bytes(32, "big")` at
`2^256` (`str(e)`). -/
def overflowExc : String := "int too big to convert"

/-- Message of the `ValueError` raised when assigning into the array from
`np.frombuffer` over immutable `bytes` (`str(e)`). -/
def readOnlyExc : String := "assignment destination is read-only"

/-- Model of `HostSetting.increase_key32`: read `key32` as a big-endian
integer, add `1 << iteration_bits`, and serialize back to 32 bytes.
`Except.error` carries a raised exception's message: `OverflowError` from
`to_bytes(32, "big")` at `2^256`, or the `ValueError` raised if the
re-zero assignment `new_key32[-iteration_bytes:] = 0` ever runs, since the
`np.frombuffer` array over `bytes` is read-only.  Because the unsigned
negation wraps, the checked slice is empty for every `iteration_bytes` in
1..224, so on the practical path nothing is re-zeroed or raised and the
stored key is exactly `current + 2^bits`. -/
def increaseKey32Bytes (bits ibytes : Nat) (key : List Nat) : Except String (List Nat) :=
  if bytesToNat key + 2 ^ bits < 2 ^ 256 then
    if ((natToBytes 32 (bytesToNat key + 2 ^ bits)).drop (sliceStart ibytes)).any
        (fun x => x != 0) then
      Except.error readOnlyExc
    else
      Except.ok (natToBytes 32 (bytesToNat key + 2 ^ bits))
  else
    Except.error overflowExc

/-- The `HostSetting` object of `src/core/vangen.py`. -/
structure HostSetting where
  iteration_bits : Nat
  iteration_bytes : Nat
  global_work_size : Nat
  local_work_size : Nat
  key32 : List Nat
  kernel_source : List String
deriving DecidableEq

/-- Model of `HostSetting.__init__` together with `generate_key32`: the random part
of the seed (`secrets.token_bytes(32 - iteration_bytes)`) is passed in as
`entropy`, and the low `iteration_bytes` bytes are zero. -/
def HostSetting.init (ksrc : List String) (bits : Nat) (entropy : List Nat) : HostSetting :=
  { iteration_bits := bits
    iteration_bytes := iterationBytes bits
    global_work_size := 2 ^ bits
    local_work_size := 32
    key32 := entropy ++ List.replicate (iterationBytes bits) 0
    kernel_source := ksrc }

/-- Model of `HostSetting.increase_key32` as a state transformer: the method only
assigns `self.key32[:]`, so the embedding updates only that field. -/
def HostSetting.increase_key32 (s : HostSetting) : Except String HostSetting :=
  (increaseKey32Bytes s.iteration_bits s.iteration_bytes s.key32).map
    (fun k => { s with key32 := k })

/-- All-zero 32-byte key, a possible output of `generate_key32`. -/
def zeroKey32 : List Nat := List.replicate 32 0

example : iterationBytes 24 = 3 := by decide
example : iterationBytes 4 = 1 := by decide
example : sliceStart 3 = 253 := by decide
example :
    increaseKey32Bytes 4 (iterationBytes 4) zeroKey32 =
      Except.ok (natToBytes 32 (2 ^ 4)) := by
  decide
example :
    increaseKey32Bytes 8 (iterationBytes 8) zeroKey32 =
      Except.ok (natToBytes 32 (2 ^ 8)) := by
  decide

/-! ### Pattern validation (`check_character`) -/

/-- The 58-character alphabet accepted by `base58.b58decode`. -/
def base58Alphabet : String := "123456789ABCDEFGHJKLMNPQRSTUVWXYZabcdefghijkmnopqrstuvwxyz"

/-- Membership in the base58 alphabet. -/
def isBase58Char (c : Char) : Bool := base58Alphabet.toList.contains c

/-- Model of `check_character(name, s)`: it succeeds (returns `true`) when `b58decode`
does not raise, i.e. when every character of `s` is in the alphabet; on the
first bad character the Python function logs and calls `sys.exit(1)`, which
the caller models as process exit (see `search_vanity_addresses`). -/
def check_character (s : List Char) : Bool := s.all isBase58Char

/-! ### Base58 encoding (`base58.b58encode`) -/

/-- Base-58 digits of `n`, most significant first; the first argument is
recursion fuel, always called with `fuel = n` which bounds the number of
divisions by 58. -/
def b58digits : Nat → Nat → List Char
  | 0, _ => []
  | _ + 1, 0 => []
  | fuel + 1, n =>
    b58digits fuel (n / 58) ++ [base58Alphabet.toList.getD (n % 58) '1']

/-- Count of leading zero entries of a byte list. -/
def leadingZeros : List Nat → Nat
  | [] => 0
  | b :: rest => if b = 0 then leadingZeros rest + 1 else 0

/-- Model of `b58encode(bs).decode()`: one `'1'` per leading zero byte, then the
base-58 digits of the big-endian value of `bs`. -/
def b58encode (bs : List Nat) : String :=
  let n := bytesToNat bs
  String.mk (List.replicate (leadingZeros bs) '1' ++ b58digits n n)

example : b58encode [0, 0] = "11" := by decide
example : b58encode [1, 0] = "5R" := by decide

/-! ### Kernel source builder (`get_kernel_source`) -/

/-- Marker recognized by `s.startswith("constant uchar PREFIX[]")`. -/
def startsWithMarker : String := "constant uchar PREFIX[]"

/-- Marker recognized by `s.startswith("constant uchar SUFFIX[]")`. -/
def endsWithMarker : String := "constant uchar SUFFIX[]"

/-- The line removed by the two platform workarounds (with its newline,
matching `source_str.replace("#define __generic\n", "")`). -/
def genericDefineLine : String := "#define __generic\n"

/-- Separator of `", ".join(...)`. -/
def commaSep : String := ", "

/-- The literal byte-array declaration line
`constant uchar <name>[] = {b0, b1, ...};\n` spliced into the template. -/
def byteArrayDecl (name : String) (bs : List Nat) : String :=
  "constant uchar " ++ name ++ "[] = \x7b" ++
    String.intercalate commaSep (bs.map toString) ++ "\x7d;\n"

/-- Name spliced for the requested address start. -/
def startsWithName : String := "PREFIX"

/-- Name spliced for the requested address end. -/
def endsWithName : String := "SUFFIX"

/-- One iteration of the template loop: both `if`s test the original line
`s`, so a line matching the first marker is replaced and the (disjoint)
second marker is checked against the original text as well. -/
def substituteLine (pBytes sBytes : List Nat) (line : String) : String :=
  let l1 := if line.startsWith startsWithMarker then byteArrayDecl startsWithName pBytes else line
  if line.startsWith endsWithMarker then byteArrayDecl endsWithName sBytes else l1

/-- Model of `source_str.replace("#define __generic\n", "")` at line granularity:
the template's lines each end in a single newline, so every occurrence of
the pattern is a whole line equal to it. -/
def removeGenericDefine (lines : List String) : List String :=
  lines.filter (fun l => l != genericDefineLine)

/-- Model of `get_kernel_source`: substitute the two marked constant-array lines,
then drop the `__generic` macro line once if an NVIDIA platform is present
on Windows, and once more if the OpenCL header major version is not 1 off
Windows.  The template file's lines (with trailing newlines, as returned by
`readlines()`) and the platform facts are parameters. -/
def get_kernel_source (pBytes sBytes : List Nat) (template : List String)
    (nvidia win : Bool) (clMajor : Nat) : List String :=
  let subbed := template.map (substituteLine pBytes sBytes)
  let s1 := if nvidia && win then removeGenericDefine subbed else subbed
  if (clMajor != 1) && !win then removeGenericDefine s1 else s1

/-- The source as §4.2 of the spec words it: the macro line is removed
exactly when (NVIDIA ∧ Windows) ∨ (header major ≠ 1 ∧ ¬Windows), otherwise
the patched template is returned unchanged. -/
def buildKernelSpec (pBytes sBytes : List Nat) (template : List String)
    (nvidia win : Bool) (clMajor : Nat) : List String :=
  let subbed := template.map (substituteLine pBytes sBytes)
  if (nvidia && win) || ((clMajor != 1) && !win) then removeGenericDefine subbed else subbed

/-! ### Orchestration (`multi_gpu_init`, the round loop of
`search_vanity_addresses` with `select_device=False`, `save`-style
persistence inlined in the loop)

The GPU kernel itself is an external collaborator: a worker's raw outcome
for a round is an `Except`, where `Except.ok o` is the 33-byte output array
of `Searcher.find` (byte 0 the found flag, bytes 1..32 the private seed)
and `Except.error e` a raised compute-API exception.  Ed25519 public-key
derivation (`nacl.signing.SigningKey(...).verify_key`) is the parameter
`derive`. -/

/-- Model of `multi_gpu_init`: return the searcher's output, or log and return
`[0]` when any exception is raised. -/
def multi_gpu_init (r : Except String (List Nat)) : List Nat :=
  match r with
  | Except.ok o => o
  | Except.error _ => [0]

/-- A `{"pubkey": ..., "path": ...}` entry of `found_keys`. -/
structure FoundKey where
  pubkey : String
  path : String
deriving DecidableEq

/-- File extension of the persisted keypair files. -/
def jsonExt : String := ".json"

/-- Path separator used by `Path(output_dir, name)`. -/
def pathSep : String := "/"

/-- Mutable state threaded through one round's result-processing loop:
`result_count`, `found_keys`, and the files written so far (full path and
the JSON array contents, as the list of 64 integers). -/
structure HarvestSt where
  rc : Nat
  keys : List FoundKey
  files : List (String × List Nat)
deriving DecidableEq

/-- Processing of one found output: `pv_bytes = bytes(output[1:])`,
`pb_bytes = bytes(SigningKey(pv_bytes).verify_key)` (the `derive`
parameter), `pubkey = b58encode(pb_bytes).decode()`; the file
`<output_dir>/<pubkey>.json` receives `list(pv_bytes + pb_bytes)`, the
match is appended to `found_keys`, and `result_count` is incremented. -/
def foundEntry (derive : List Nat → List Nat) (outDir : String) (output : List Nat)
    (st : HarvestSt) : HarvestSt :=
  { rc := st.rc + 1
    keys := st.keys ++
      [{ pubkey := b58encode (derive (output.drop 1))
         path := outDir ++ pathSep ++ b58encode (derive (output.drop 1)) ++ jsonExt }]
    files := st.files ++
      [(outDir ++ pathSep ++ b58encode (derive (output.drop 1)) ++ jsonExt,
        output.drop 1 ++ derive (output.drop 1))] }

/-- The `for output in results:` loop of `search_vanity_addresses`: skip
outputs whose flag byte is falsy; otherwise process the found output via
`foundEntry` and `break` once `result_count` reaches `count`. -/
def harvestRound (derive : List Nat → List Nat) (count : Nat) (outDir : String) :
    List (List Nat) → HarvestSt → HarvestSt
  | [], st => st
  | output :: rest, st =>
    if output.headD 0 = 0 then
      harvestRound derive count outDir rest st
    else
      if count ≤ st.rc + 1 then
        foundEntry derive outDir output st
      else
        harvestRound derive count outDir rest (foundEntry derive outDir output st)

/-- Status string of the round-start callback. -/
def statusSearching : String := "searching"

/-- Status string of the completion callback. -/
def statusComplete : String := "complete"

/-- Status string of the error callback. -/
def statusError : String := "error"

/-- Message `"Please provide at least a prefix or suffix"` (early return). -/
def errEmptyPattern : String := "Please provide at least a prefix or suffix"

/-- Message `"No compatible GPU devices found"` (empty device list). -/
def errNoDevice : String := "No compatible GPU devices found"

/-- The catch-all wrapper `f"Error in search_vanity_addresses: {str(e)}"`
put around an exception raised inside the loop. -/
def catchAllMsg (e : String) : String := "Error in search_vanity_addresses: " ++ e

/-- The catch-all message when `increase_key32` overflows 2^256. -/
def overflowMsg : String := catchAllMsg overflowExc

/-- One invocation of the progress callback: the dictionary's `status`,
optional `progress`, and optional `error` entries. -/
structure CallbackEvent where
  status : String
  progress : Option ℚ
  error : Option String
deriving DecidableEq

/-- How a terminated `search_vanity_addresses` call ended: `exited` models
`sys.exit` (`SystemExit` is not caught by `except Exception`), `failure`
the `{"success": False, "error": ...}` dictionary, `success` the
`{"success": True, "results": ..., "count": ...}` dictionary. -/
inductive SearchOutcome where
  | exited (code : Nat)
  | failure (error : String)
  | success (results : List FoundKey) (count : Nat)
deriving DecidableEq

/-- Observable trace of a terminated run: the returned value, the files
written to the output directory, and the callback invocations in order. -/
structure SearchTrace where
  outcome : SearchOutcome
  files : List (String × List Nat)
  events : List CallbackEvent
deriving DecidableEq

/-- The `while result_count < count:` round loop (parallel branch).  Fuel
bounds the number of rounds; `none` means the loop was still running after
`fuel` rounds.  Each iteration emits the `"searching"` callback, maps the
round's raw worker outcomes through `multi_gpu_init`, harvests, and calls
`increase_key32`; an exception there (overflow, or the read-only-buffer
`ValueError`) is caught by the surrounding `except Exception`, which emits
the `"error"` callback (with no progress entry) and returns the failure
dictionary. -/
def searchLoop (derive : List Nat → List Nat)
    (dispatch : Nat → List (Except String (List Nat)))
    (count bits ibytes : Nat) (outDir : String) :
    Nat → Nat → HarvestSt → List Nat → List CallbackEvent → Option SearchTrace
  | 0, _, _, _, _ => none
  | fuel + 1, round, st, key32, events =>
    if st.rc < count then
      let events1 := events ++
        [{ status := statusSearching, progress := some ((st.rc : ℚ) / (count : ℚ)),
           error := none }]
      let results := (dispatch round).map multi_gpu_init
      let st1 := harvestRound derive count outDir results st
      match increaseKey32Bytes bits ibytes key32 with
      | Except.ok key2 =>
        searchLoop derive dispatch count bits ibytes outDir fuel (round + 1) st1 key2 events1
      | Except.error e =>
        some { outcome := SearchOutcome.failure (catchAllMsg e)
               files := st1.files
               events := events1 ++
                 [{ status := statusError, progress := none, error := some (catchAllMsg e) }] }
    else
      some { outcome := SearchOutcome.success st.keys st.rc
             files := st.files
             events := events ++
               [{ status := statusComplete, progress := some 1, error := none }] }

/-- Model of `search_vanity_addresses` (with `select_device=False`): empty-pattern
early return, the two `check_character` calls (whose `sys.exit(1)` escapes
the `except Exception` handler as `SearchOutcome.exited 1`), the
empty-device-list early return, `HostSetting` creation from the entropy
bytes, and the round loop.  The compiled kernel is abstracted by
`dispatch`/`derive`; `devices` is the length of the enumerated GPU list. -/
def search_vanity_addresses (derive : List Nat → List Nat)
    (dispatch : Nat → List (Except String (List Nat)))
    (starts_with ends_with : List Char) (count : Nat) (outDir : String)
    (iteration_bits devices : Nat) (entropy : List Nat) (fuel : Nat) :
    Option SearchTrace :=
  if starts_with = [] ∧ ends_with = [] then
    some { outcome := SearchOutcome.failure errEmptyPattern, files := [], events := [] }
  else if check_character starts_with = false then
    some { outcome := SearchOutcome.exited 1, files := [], events := [] }
  else if check_character ends_with = false then
    some { outcome := SearchOutcome.exited 1, files := [], events := [] }
  else if devices = 0 then
    some { outcome := SearchOutcome.failure errNoDevice, files := [], events := [] }
  else
    let ib := iterationBytes iteration_bits
    let key0 := entropy ++ List.replicate ib 0
    searchLoop derive dispatch count iteration_bits ib outDir fuel 0
      { rc := 0, keys := [], files := [] } key0 []

/-- Found outputs of a round: those whose flag byte is truthy. -/
def foundCount (outputs : List (List Nat)) : Nat :=
  outputs.countP (fun o => decide (¬ o.headD 0 = 0))

/-! ### Helper lemmas: big-endian byte arithmetic -/

lemma bytesToNat_foldl (l : List Nat) (acc : Nat) :
    l.foldl (fun a b => a * 256 + b) acc =
      acc * 256 ^ l.length + l.foldl (fun a b => a * 256 + b) 0 := by
  induction l generalizing acc with
  | nil => simp
  | cons x xs ih =>
    simp only [List.foldl_cons, List.length_cons]
    rw [ih (acc * 256 + x), ih (0 * 256 + x)]
    ring

lemma bytesToNat_append (a b : List Nat) :
    bytesToNat (a ++ b) = bytesToNat a * 256 ^ b.length + bytesToNat b := by
  unfold bytesToNat
  rw [List.foldl_append, bytesToNat_foldl]

lemma bytesToNat_eq_zero (l : List Nat) (h : l.all (fun x => x == 0) = true) :
    bytesToNat l = 0 := by
  induction l with
  | nil => rfl
  | cons x xs ih =>
    simp only [List.all_cons, Bool.and_eq_true, beq_iff_eq] at h
    have hx : bytesToNat (x :: xs) = bytesToNat xs := by
      unfold bytesToNat
      simp [h.1]
    rw [hx, ih h.2]

lemma length_natToBytes (k n : Nat) : (natToBytes k n).length = k := by
  induction k generalizing n with
  | zero => rfl
  | succ k ih => simp [natToBytes, ih]

lemma bytesToNat_natToBytes (k n : Nat) : bytesToNat (natToBytes k n) = n % 256 ^ k := by
  induction k generalizing n with
  | zero => simp [natToBytes, bytesToNat, Nat.mod_one]
  | succ k ih =>
    rw [natToBytes, bytesToNat_append, ih]
    have hb : bytesToNat [n % 256] = n % 256 := by simp [bytesToNat]
    rw [hb]
    calc n / 256 % 256 ^ k * 256 ^ [n % 256].length + n % 256
        = n % 256 + 256 * (n / 256 % 256 ^ k) := by simp; ring
      _ = n % (256 * 256 ^ k) := Nat.mod_mul.symm
      _ = n % 256 ^ (k + 1) := by rw [pow_succ']

lemma natToBytes_drop_zero (k : Nat) : ∀ m n : Nat, k ≤ m → 2 ^ (8 * k) ∣ n →
    (natToBytes m n).drop (m - k) = List.replicate k 0 := by
  induction k with
  | zero =>
    intro m n _ _
    exact List.drop_eq_nil_of_le (by rw [length_natToBytes]; omega)
  | succ k ih =>
    intro m n hk hd
    cases m with
    | zero => omega
    | succ m =>
      have h256 : (256 : Nat) ∣ n := by
        have h8 : (2 : Nat) ^ 8 ∣ 2 ^ (8 * (k + 1)) := pow_dvd_pow 2 (by omega)
        have := dvd_trans h8 hd
        norm_num at this
        exact this
      have hmod : n % 256 = 0 := by
        obtain ⟨t, ht⟩ := h256
        rw [ht, Nat.mul_mod_right]
      have hdiv : 2 ^ (8 * k) ∣ n / 256 := by
        obtain ⟨t, ht⟩ := hd
        subst ht
        refine ⟨t, ?_⟩
        rw [show 8 * (k + 1) = 8 * k + 8 by ring, pow_add]
        rw [show (2 : Nat) ^ 8 = 256 by norm_num]
        rw [show 2 ^ (8 * k) * 256 * t = 2 ^ (8 * k) * t * 256 by ring]
        exact Nat.mul_div_cancel _ (by norm_num)
      rw [natToBytes]
      rw [show m + 1 - (k + 1) = m - k by omega]
      rw [List.drop_append_of_le_length (by rw [length_natToBytes]; omega)]
      rw [ih m (n / 256) (by omega) hdiv, hmod]
      rw [← List.replicate_succ']

lemma dvd_of_low_zero (S : List Nat) (ib : Nat) (hlen : S.length = 32) (hib : ib ≤ 32)
    (hz : (S.drop (32 - ib)).all (fun x => x == 0) = true) :
    2 ^ (8 * ib) ∣ bytesToNat S := by
  have hsplit : bytesToNat S =
      bytesToNat (S.take (32 - ib)) * 256 ^ (S.drop (32 - ib)).length +
        bytesToNat (S.drop (32 - ib)) := by
    conv_lhs => rw [← List.take_append_drop (32 - ib) S]
    rw [bytesToNat_append]
  rw [hsplit, bytesToNat_eq_zero _ hz, List.length_drop, hlen]
  rw [show (32 : Nat) - (32 - ib) = ib by omega]
  rw [show (256 : Nat) = 2 ^ 8 by norm_num, ← pow_mul]
  rw [Nat.add_zero]
  exact dvd_mul_left _ _

/-- On the practical path (`iteration_bytes` between 1 and 224), the
wrapped slice is empty, so a non-overflowing advancement always succeeds
and stores exactly `current + 2^bits` — nothing is ever re-zeroed. -/
lemma increase_step (bits ibytes : Nat) (key : List Nat)
    (h1 : 1 ≤ ibytes) (h2 : ibytes ≤ 224)
    (hov : bytesToNat key + 2 ^ bits < 2 ^ 256) :
    increaseKey32Bytes bits ibytes key =
      Except.ok (natToBytes 32 (bytesToNat key + 2 ^ bits)) := by
  have hdrop : (natToBytes 32 (bytesToNat key + 2 ^ bits)).drop (sliceStart ibytes) = [] :=
    List.drop_eq_nil_of_le
      (by rw [length_natToBytes]; unfold sliceStart; omega)
  unfold increaseKey32Bytes
  rw [if_pos hov, hdrop]
  rw [if_neg (by simp)]

lemma iterationBytes_of_aligned (bits : Nat) (h8 : 8 ∣ bits) (hle : bits ≤ 256) :
    iterationBytes bits = bits / 8 := by
  unfold iterationBytes
  omega

lemma iterationBytes_bounds (bits : Nat) (hpos : 0 < bits) (hle : bits ≤ 256) :
    1 ≤ iterationBytes bits ∧ iterationBytes bits ≤ 32 := by
  unfold iterationBytes
  omega

/-! ### Claims C1, C2, C10: the counter and its advancement -/

/-- C1, as stated, is false in its low-bytes-zero half: `iteration_bytes`
is an `np.ubyte`, so the slice `new_key32[-iteration_bytes:]` wraps to an
empty slice and nothing is ever re-zeroed; the stored key is exactly
`current + 2^bits`.  At `iterationBits = 4` from the all-zero initial seed
the first advancement stores `S + 16`, whose low `iterationBytes` (= 1)
byte region contains 16 ≠ 0. -/
theorem claim_C1_counterexample :
    (HostSetting.init [] 4 (List.replicate 31 0)).key32 = zeroKey32 ∧
    increaseKey32Bytes 4 (iterationBytes 4) zeroKey32 =
      Except.ok (natToBytes 32 (2 ^ 4)) ∧
    ((natToBytes 32 (2 ^ 4)).drop (32 - iterationBytes 4)).any
      (fun x => x != 0) = true :=
  ⟨by decide, by decide, by decide⟩

/-- C1 (amended): for every `iterationBits` b with 0 < b ≤ 256 and every
initial seed whose low `iterationBytes` bytes are zero, two advancements
produce exactly the key32 sequence `S`, `S + 2^b`, `S + 2·2^b` in
big-endian 256-bit arithmetic — provided the additions stay below `2^256`;
the re-zeroing defense is dead code (the wrapped numpy slice is empty), so
the sums are stored verbatim.  When b is additionally a multiple of 8,
each of the three values has its low `iterationBytes` bytes exactly
zero. -/
theorem increase_key32_sequence (bits : Nat) (S : List Nat)
    (hpos : 0 < bits) (hle : bits ≤ 256) (hlen : S.length = 32)
    (hz : (S.drop (32 - iterationBytes bits)).all (fun x => x == 0) = true)
    (hov : bytesToNat S + 2 * 2 ^ bits < 2 ^ 256) :
    increaseKey32Bytes bits (iterationBytes bits) S =
      Except.ok (natToBytes 32 (bytesToNat S + 2 ^ bits)) ∧
    increaseKey32Bytes bits (iterationBytes bits)
        (natToBytes 32 (bytesToNat S + 2 ^ bits)) =
      Except.ok (natToBytes 32 (bytesToNat S + 2 * 2 ^ bits)) ∧
    (8 ∣ bits →
      ((natToBytes 32 (bytesToNat S + 2 ^ bits)).drop (32 - iterationBytes bits)).all
        (fun x => x == 0) = true ∧
      ((natToBytes 32 (bytesToNat S + 2 * 2 ^ bits)).drop (32 - iterationBytes bits)).all
        (fun x => x == 0) = true) := by
  obtain ⟨hib1, hib2⟩ := iterationBytes_bounds bits hpos hle
  have hov1 : bytesToNat S + 2 ^ bits < 2 ^ 256 := by omega
  have e1 := increase_step bits (iterationBytes bits) S hib1 (by omega) hov1
  have hpow : (256 : Nat) ^ 32 = 2 ^ 256 := by
    rw [show (256 : Nat) = 2 ^ 8 by norm_num, ← pow_mul]
    norm_num
  have hrt : bytesToNat (natToBytes 32 (bytesToNat S + 2 ^ bits)) =
      bytesToNat S + 2 ^ bits := by
    rw [bytesToNat_natToBytes]
    exact Nat.mod_eq_of_lt (by rw [hpow]; exact hov1)
  have e2 := increase_step bits (iterationBytes bits)
    (natToBytes 32 (bytesToNat S + 2 ^ bits)) hib1 (by omega) (by rw [hrt]; omega)
  rw [hrt] at e2
  rw [show bytesToNat S + 2 ^ bits + 2 ^ bits = bytesToNat S + 2 * 2 ^ bits by ring] at e2
  refine ⟨e1, e2, ?_⟩
  intro h8
  obtain ⟨m, hm⟩ := h8
  have hib : iterationBytes bits = m := by
    unfold iterationBytes
    omega
  have hm32 : m ≤ 32 := by omega
  have hdvdS : 2 ^ (8 * m) ∣ bytesToNat S := by
    refine dvd_of_low_zero S m hlen hm32 ?_
    rw [← hib]
    exact hz
  have hd1 : 2 ^ (8 * m) ∣ bytesToNat S + 2 ^ bits := by
    refine dvd_add hdvdS ?_
    rw [hm]
  have hd2 : 2 ^ (8 * m) ∣ bytesToNat S + 2 * 2 ^ bits := by
    refine dvd_add hdvdS ?_
    rw [hm]
    exact Dvd.dvd.mul_left dvd_rfl 2
  rw [hib]
  constructor
  · rw [natToBytes_drop_zero m 32 _ hm32 hd1]
    simp
  · rw [natToBytes_drop_zero m 32 _ hm32 hd2]
    simp

/-- C1 witness: the amended sequence property at `iterationBits = 8` and
the all-zero seed. -/
theorem increase_key32_sequence_witness :
    (zeroKey32.drop (32 - iterationBytes 8)).all (fun x => x == 0) = true ∧
    increaseKey32Bytes 8 (iterationBytes 8) zeroKey32 =
      Except.ok (natToBytes 32 (bytesToNat zeroKey32 + 2 ^ 8)) :=
  ⟨by decide,
   (increase_key32_sequence 8 zeroKey32 (by decide) (by decide) (by decide)
      (by decide) (by decide)).1⟩

/-- C2 is right about the intended invariant, but the code does not keep
it: the re-zero defense `new_key32[-self.iteration_bytes:] = 0` guards a
slice whose start `-np.ubyte(ib)` wraps to `256 - ib` — an empty slice
for every practical `iteration_bytes` — and the `np.frombuffer` array is
read-only, so the assignment would raise were the slice ever nonempty.
Starting from `key32 = 0x00…01` with `iterationBits = 24`, the advancement
returns normally and stores `2^24 + 1`, whose low 3 bytes are
`[0, 0, 1]` ≠ 0. -/
theorem claim_C2_code_bug :
    increaseKey32Bytes 24 (iterationBytes 24) (List.replicate 31 0 ++ [1]) =
      Except.ok (natToBytes 32 (2 ^ 24 + 1)) ∧
    ((natToBytes 32 (2 ^ 24 + 1)).drop (32 - iterationBytes 24)).any
      (fun x => x != 0) = true :=
  ⟨by decide, by decide⟩

/-- C10: `increase_key32` only assigns `self.key32[:]`; every other field
of the `HostSetting` is unchanged by a successful advancement. -/
theorem increase_key32_frame (s s' : HostSetting) (h : s.increase_key32 = Except.ok s') :
    s'.iteration_bits = s.iteration_bits ∧ s'.iteration_bytes = s.iteration_bytes ∧
    s'.global_work_size = s.global_work_size ∧ s'.local_work_size = s.local_work_size ∧
    s'.kernel_source = s.kernel_source := by
  unfold HostSetting.increase_key32 at h
  cases hk : increaseKey32Bytes s.iteration_bits s.iteration_bytes s.key32 with
  | error e =>
    rw [hk] at h
    simp only [Except.map] at h
    exact Except.noConfusion h
  | ok k =>
    rw [hk] at h
    simp only [Except.map] at h
    have h2 := Except.ok.inj h
    rw [← h2]
    exact ⟨rfl, rfl, rfl, rfl, rfl⟩

/-- Concrete `HostSetting` (iterationBits 8, all-zero entropy). -/
def hostSetting0 : HostSetting := HostSetting.init [] 8 (List.replicate 31 0)

/-- State `hostSetting0` after one advancement. -/
def hostSetting1 : HostSetting := { hostSetting0 with key32 := natToBytes 32 (2 ^ 8) }

/-- C10 witness: the frame property at a concrete advancement. -/
theorem increase_key32_frame_witness :
    hostSetting1.iteration_bits = hostSetting0.iteration_bits ∧
    hostSetting1.iteration_bytes = hostSetting0.iteration_bytes ∧
    hostSetting1.global_work_size = hostSetting0.global_work_size ∧
    hostSetting1.local_work_size = hostSetting0.local_work_size ∧
    hostSetting1.kernel_source = hostSetting0.kernel_source :=
  increase_key32_frame hostSetting0 hostSetting1 (by decide)

/-! ### Claims C5, C6: per-round harvesting -/

/-- C5: a worker whose compute call raises is mapped by `multi_gpu_init`
to `[0]`, an output whose found flag (byte 0) is unset; the round's
harvest treats it exactly as "not found" and continues with the remaining
workers' results unchanged, so the failure never aborts the run. -/
theorem dispatch_error_treated_not_found (derive : List Nat → List Nat)
    (count : Nat) (outDir : String) (e : String)
    (rest : List (List Nat)) (st : HarvestSt) :
    multi_gpu_init (Except.error e) = [0] ∧
    (multi_gpu_init (Except.error e)).headD 0 = 0 ∧
    harvestRound derive count outDir (multi_gpu_init (Except.error e) :: rest) st =
      harvestRound derive count outDir rest st := by
  refine ⟨rfl, rfl, ?_⟩
  rw [show multi_gpu_init (Except.error e) = [0] from rfl]
  rw [harvestRound, if_pos (show ([0] : List Nat).headD 0 = 0 from rfl)]

/-- C6: harvesting one found output appends exactly one file, named by the
base58 encoding of the Ed25519 public key derived from bytes 1..32 of the
output, whose contents are the 64 integers: the 32 private-key bytes
followed by the 32 public-key bytes. -/
theorem harvest_found_persists_file (derive : List Nat → List Nat)
    (count : Nat) (outDir : String) (output : List Nat) (st : HarvestSt)
    (hfound : ¬ output.headD 0 = 0) (hlen : output.length = 33)
    (hpk : (derive (output.drop 1)).length = 32) :
    harvestRound derive count outDir [output] st =
      { rc := st.rc + 1
        keys := st.keys ++
          [{ pubkey := b58encode (derive (output.drop 1))
             path := outDir ++ pathSep ++ b58encode (derive (output.drop 1)) ++ jsonExt }]
        files := st.files ++
          [(outDir ++ pathSep ++ b58encode (derive (output.drop 1)) ++ jsonExt,
            output.drop 1 ++ derive (output.drop 1))] } ∧
    (output.drop 1 ++ derive (output.drop 1)).length = 64 := by
  constructor
  · rw [harvestRound, if_neg hfound]
    by_cases hc : count ≤ st.rc + 1
    · rw [if_pos hc]
      rfl
    · rw [if_neg hc, harvestRound]
      rfl
  · rw [List.length_append, List.length_drop, hlen, hpk]

/-- Concrete found output: flag byte 1, private seed bytes all 5. -/
def outputFive : List Nat := 1 :: List.replicate 32 5

/-- Concrete stand-in for the Ed25519 public-key derivation. -/
def deriveSeven : List Nat → List Nat := fun _ => List.replicate 32 7

/-- C6 witness: the persisted-file shape at a concrete found output. -/
theorem harvest_found_persists_file_witness :
    harvestRound deriveSeven 1 "out" [outputFive] { rc := 0, keys := [], files := [] } =
      { rc := 0 + 1
        keys := [] ++
          [{ pubkey := b58encode (deriveSeven (outputFive.drop 1))
             path := "out" ++ pathSep ++ b58encode (deriveSeven (outputFive.drop 1)) ++ jsonExt }]
        files := [] ++
          [("out" ++ pathSep ++ b58encode (deriveSeven (outputFive.drop 1)) ++ jsonExt,
            outputFive.drop 1 ++ deriveSeven (outputFive.drop 1))] } ∧
    (outputFive.drop 1 ++ deriveSeven (outputFive.drop 1)).length = 64 :=
  harvest_found_persists_file deriveSeven 1 "out" outputFive
    { rc := 0, keys := [], files := [] } (by decide) (by decide) (by decide)

/-! ### Claim C4: stopping at the requested count -/

lemma foundCount_cons_skip (o : List Nat) (rest : List (List Nat)) (h : o.headD 0 = 0) :
    foundCount (o :: rest) = foundCount rest := by
  unfold foundCount
  rw [List.countP_cons_of_neg]
  simpa using h

lemma foundCount_cons_found (o : List Nat) (rest : List (List Nat)) (h : ¬ o.headD 0 = 0) :
    foundCount (o :: rest) = foundCount rest + 1 := by
  unfold foundCount
  rw [List.countP_cons_of_pos]
  simpa using h

/-- How many matches one round's harvest persists: starting below the
target, the loop processes found outputs in order and stops at `count`, so
exactly `min (foundCount outputs) (count - st.rc)` new matches are counted
and exactly that many files are written. -/
lemma harvestRound_counts (derive : List Nat → List Nat) (count : Nat) (outDir : String)
    (outputs : List (List Nat)) : ∀ st : HarvestSt, st.rc < count →
    (harvestRound derive count outDir outputs st).rc =
      st.rc + min (foundCount outputs) (count - st.rc) ∧
    (harvestRound derive count outDir outputs st).files.length =
      st.files.length + min (foundCount outputs) (count - st.rc) := by
  induction outputs with
  | nil =>
    intro st h
    constructor <;> simp [harvestRound, foundCount]
  | cons o rest ih =>
    intro st h
    by_cases ho : o.headD 0 = 0
    · rw [harvestRound, if_pos ho, foundCount_cons_skip o rest ho]
      exact ih st h
    · rw [harvestRound, if_neg ho, foundCount_cons_found o rest ho]
      by_cases hc : count ≤ st.rc + 1
      · rw [if_pos hc]
        have hrc : (foundEntry derive outDir o st).rc = st.rc + 1 := rfl
        have hfl : (foundEntry derive outDir o st).files.length = st.files.length + 1 := by
          simp [foundEntry]
        rw [hrc, hfl]
        omega
      · rw [if_neg hc]
        have hrc : (foundEntry derive outDir o st).rc = st.rc + 1 := rfl
        have hfl : (foundEntry derive outDir o st).files.length = st.files.length + 1 := by
          simp [foundEntry]
        obtain ⟨ha, hb⟩ := ih (foundEntry derive outDir o st) (by rw [hrc]; omega)
        rw [ha, hb, hrc, hfl]
        omega

/-- Unfolding the top level past validation, with valid non-empty patterns
and a non-empty device list. -/
lemma search_run (derive : List Nat → List Nat)
    (dispatch : Nat → List (Except String (List Nat)))
    (sw es : List Char) (count : Nat) (outDir : String) (bits devices : Nat)
    (entropy : List Nat) (fuel : Nat)
    (hsw : check_character sw = true) (hes : check_character es = true)
    (hne : ¬(sw = [] ∧ es = [])) (hdev : ¬ devices = 0) :
    search_vanity_addresses derive dispatch sw es count outDir bits devices entropy fuel =
      searchLoop derive dispatch count bits (iterationBytes bits) outDir fuel 0
        { rc := 0, keys := [], files := [] }
        (entropy ++ List.replicate (iterationBytes bits) 0) [] := by
  unfold search_vanity_addresses
  rw [if_neg hne]
  rw [if_neg (show ¬ check_character sw = false by rw [hsw]; exact fun hc => Bool.noConfusion hc)]
  rw [if_neg (show ¬ check_character es = false by rw [hes]; exact fun hc => Bool.noConfusion hc)]
  rw [if_neg hdev]

/-- Identity as a stand-in public-key derivation (32 bytes to 32 bytes). -/
def deriveId : List Nat → List Nat := fun pv => pv

/-- Found output: flag 1, private seed all 1. -/
def outOne : List Nat := 1 :: List.replicate 32 1

/-- Found output: flag 1, private seed all 2. -/
def outTwo : List Nat := 1 :: List.replicate 32 2

/-- Two workers, both reporting found in every round. -/
def dispatchTwoFound : Nat → List (Except String (List Nat)) :=
  fun _ => [Except.ok outOne, Except.ok outTwo]

/-- One worker, reporting found in every round. -/
def dispatchOneFound : Nat → List (Except String (List Nat)) :=
  fun _ => [Except.ok outOne]

/-- A valid one-character pattern. -/
def swA : List Char := ['A']

/-- C4, as stated, is false in its persistence half: with `count = 1` and a
round in which both workers report found, the harvest loop `break`s after
the first match, so only one file is written even though two same-round
matches were reported — the second match is dropped, not persisted. -/
theorem claim_C4_counterexample :
    Option.map (fun tr => tr.files.length)
        (search_vanity_addresses deriveId dispatchTwoFound swA [] 1 "out" 8 2
          (List.replicate 31 0) 2) = some 1 ∧
    foundCount ((dispatchTwoFound 0).map multi_gpu_init) = 2 :=
  ⟨by decide, by decide⟩

/-- C4 (amended): a run whose first round reports at least `count` found
outputs terminates after that single round (exactly one `"searching"`
callback is ever emitted, then the `"complete"` one), persists exactly
`count` files — same-round matches are handled in order and those after
the `count`-th are skipped by the `break`, not persisted — and returns a
success result carrying `count`. -/
theorem search_stops_at_count (derive : List Nat → List Nat)
    (dispatch : Nat → List (Except String (List Nat)))
    (sw es : List Char) (count : Nat) (outDir : String) (bits devices : Nat)
    (entropy : List Nat) (fuel : Nat)
    (hsw : check_character sw = true) (hes : check_character es = true)
    (hne : ¬(sw = [] ∧ es = [])) (hdev : ¬ devices = 0) (hcount : 0 < count)
    (hfound : count ≤ foundCount ((dispatch 0).map multi_gpu_init))
    (hinc : ∃ key1, increaseKey32Bytes bits (iterationBytes bits)
        (entropy ++ List.replicate (iterationBytes bits) 0) = Except.ok key1)
    (hfuel : 2 ≤ fuel) :
    ∃ tr, search_vanity_addresses derive dispatch sw es count outDir bits devices entropy fuel
        = some tr ∧
      tr.events =
        [{ status := statusSearching, progress := some (((0 : Nat) : ℚ) / (count : ℚ)),
           error := none },
         { status := statusComplete, progress := some 1, error := none }] ∧
      tr.files.length = count ∧
      ∃ ks, tr.outcome = SearchOutcome.success ks count := by
  obtain ⟨f, rfl⟩ : ∃ f, fuel = f + 2 := ⟨fuel - 2, by omega⟩
  rw [search_run derive dispatch sw es count outDir bits devices entropy (f + 2) hsw hes hne hdev]
  obtain ⟨key1, hk⟩ := hinc
  obtain ⟨hrc, hfl⟩ := harvestRound_counts derive count outDir
    ((dispatch 0).map multi_gpu_init) { rc := 0, keys := [], files := [] } hcount
  rw [show ({ rc := 0, keys := [], files := [] } : HarvestSt).rc = 0 from rfl] at hrc hfl
  rw [show ({ rc := 0, keys := [], files := [] } : HarvestSt).files.length = 0 from rfl] at hfl
  rw [searchLoop]
  rw [if_pos (show ({ rc := 0, keys := [], files := [] } : HarvestSt).rc < count from hcount)]
  simp only [hk]
  rw [searchLoop]
  rw [if_neg (show ¬ (harvestRound derive count outDir ((dispatch 0).map multi_gpu_init)
      { rc := 0, keys := [], files := [] }).rc < count by rw [hrc]; omega)]
  refine ⟨_, rfl, rfl, ?_, ?_⟩
  · rw [hfl]
    omega
  · refine ⟨(harvestRound derive count outDir ((dispatch 0).map multi_gpu_init)
      { rc := 0, keys := [], files := [] }).keys, ?_⟩
    rw [show (harvestRound derive count outDir ((dispatch 0).map multi_gpu_init)
      { rc := 0, keys := [], files := [] }).rc = count by rw [hrc]; omega]

/-- C4 witness: the amended one-round-stop property at a concrete run. -/
theorem search_stops_at_count_witness :
    ∃ tr, search_vanity_addresses deriveId dispatchOneFound swA [] 1 "out" 8 1
        (List.replicate 31 0) 2 = some tr ∧
      tr.events =
        [{ status := statusSearching, progress := some (((0 : Nat) : ℚ) / ((1 : Nat) : ℚ)),
           error := none },
         { status := statusComplete, progress := some 1, error := none }] ∧
      tr.files.length = 1 ∧
      ∃ ks, tr.outcome = SearchOutcome.success ks 1 :=
  search_stops_at_count deriveId dispatchOneFound swA [] 1 "out" 8 1
    (List.replicate 31 0) 2 (by decide) (by decide) (by decide) (by decide)
    (by decide) (by decide) ⟨natToBytes 32 (2 ^ 8), by decide⟩ (by decide)

/-! ### Claim C7: kernel source builder -/

lemma removeGenericDefine_idem (ls : List String) :
    removeGenericDefine (removeGenericDefine ls) = removeGenericDefine ls := by
  induction ls with
  | nil => rfl
  | cons l rest ih =>
    unfold removeGenericDefine at *
    by_cases h : (l != genericDefineLine) = true
    · simp [List.filter_cons, h, ih]
    · have h' : (l != genericDefineLine) = false := by simpa using h
      simp [List.filter_cons, h', ih]

/-- C7: the builder replaces the two marked constant-array lines with
literal byte-list declarations and removes the `#define __generic` line
exactly when (an NVIDIA platform is present and the OS is Windows) or (the
OpenCL header major version is not 1 and the OS is not Windows); in every
other platform state the patched template is returned with the line
retained.  The two sequential conditional removals of the source equal the
single disjunction-guarded removal of the spec. -/
theorem get_kernel_source_matches_spec (pBytes sBytes : List Nat) (template : List String)
    (nvidia win : Bool) (clMajor : Nat) :
    get_kernel_source pBytes sBytes template nvidia win clMajor =
      buildKernelSpec pBytes sBytes template nvidia win clMajor := by
  unfold get_kernel_source buildKernelSpec
  by_cases hm : (clMajor != 1) = true
  · cases nvidia <;> cases win <;> simp [hm, removeGenericDefine_idem]
  · have hm' : (clMajor != 1) = false := by simpa using hm
    cases nvidia <;> cases win <;> simp [hm', removeGenericDefine_idem]

/-! ### Claims C3, C8: validation and device-list failures -/

/-- C8: with valid patterns (not both empty) and an empty enumerated
device list, the search returns exactly the
`{success: false, error: "No compatible GPU devices found"}` failure, with
no file written and no callback fired. -/
theorem no_device_failure (derive : List Nat → List Nat)
    (dispatch : Nat → List (Except String (List Nat)))
    (sw es : List Char) (count : Nat) (outDir : String) (bits : Nat)
    (entropy : List Nat) (fuel : Nat)
    (hsw : check_character sw = true) (hes : check_character es = true)
    (hne : ¬(sw = [] ∧ es = [])) :
    search_vanity_addresses derive dispatch sw es count outDir bits 0 entropy fuel =
      some { outcome := SearchOutcome.failure errNoDevice, files := [], events := [] } := by
  unfold search_vanity_addresses
  rw [if_neg hne]
  rw [if_neg (show ¬ check_character sw = false by rw [hsw]; exact fun hc => Bool.noConfusion hc)]
  rw [if_neg (show ¬ check_character es = false by rw [hes]; exact fun hc => Bool.noConfusion hc)]
  rw [if_pos rfl]

/-- C8 witness: the empty-device failure at a concrete invocation. -/
theorem no_device_failure_witness :
    search_vanity_addresses deriveId dispatchOneFound swA [] 1 "out" 24 0
        (List.replicate 29 0) 5 =
      some { outcome := SearchOutcome.failure errNoDevice, files := [], events := [] } :=
  no_device_failure deriveId dispatchOneFound swA [] 1 "out" 24 (List.replicate 29 0) 5
    (by decide) (by decide) (by decide)

/-! ### Claim C9: progress callback contract -/

/-- Well-formedness of one callback invocation as the code actually emits
them: a known status; a progress value in `[0, 1]` on the `"searching"`
and `"complete"` invocations; no progress entry on the `"error"` one. -/
def goodEvent (ev : CallbackEvent) : Prop :=
  (ev.status = statusSearching ∨ ev.status = statusComplete ∨ ev.status = statusError) ∧
  (ev.status ≠ statusError → ∃ p, ev.progress = some p ∧ 0 ≤ p ∧ p ≤ 1) ∧
  (ev.status = statusError → ev.progress = none ∧ ∃ msg, ev.error = some msg)

lemma searchLoop_events_good (derive : List Nat → List Nat)
    (dispatch : Nat → List (Except String (List Nat)))
    (count bits ibytes : Nat) (outDir : String) :
    ∀ (fuel round : Nat) (st : HarvestSt) (key : List Nat)
      (events : List CallbackEvent) (tr : SearchTrace),
      searchLoop derive dispatch count bits ibytes outDir fuel round st key events = some tr →
      (∀ ev ∈ events, goodEvent ev) → ∀ ev ∈ tr.events, goodEvent ev := by
  have hse : ¬ statusSearching = statusError := by decide
  have hce : ¬ statusComplete = statusError := by decide
  intro fuel
  induction fuel with
  | zero =>
    intro round st key events tr h
    exact absurd h (by rw [searchLoop]; exact fun hc => Option.noConfusion hc)
  | succ f ih =>
    intro round st key events tr h hgood
    rw [searchLoop] at h
    by_cases hlt : st.rc < count
    · rw [if_pos hlt] at h
      have hcpos : (0 : ℚ) < (count : ℚ) := by
        have : 0 < count := by omega
        exact_mod_cast this
      have hs : goodEvent
          { status := statusSearching, progress := some ((st.rc : ℚ) / (count : ℚ)),
            error := none } := by
        refine ⟨Or.inl rfl, fun _ => ⟨(st.rc : ℚ) / (count : ℚ), rfl, ?_, ?_⟩,
          fun hc => absurd hc hse⟩
        · exact div_nonneg (Nat.cast_nonneg _) (le_of_lt hcpos)
        · rw [div_le_one hcpos]
          exact_mod_cast le_of_lt hlt
      have hgood1 : ∀ ev ∈ events ++
          [{ status := statusSearching, progress := some ((st.rc : ℚ) / (count : ℚ)),
             error := none }], goodEvent ev := by
        intro ev hev
        rcases List.mem_append.mp hev with h1 | h1
        · exact hgood ev h1
        · rw [List.mem_singleton] at h1
          rw [h1]
          exact hs
      cases hk : increaseKey32Bytes bits ibytes key with
      | ok k2 =>
        rw [hk] at h
        exact ih (round + 1) _ k2 _ tr h hgood1
      | error e =>
        rw [hk] at h
        have h2 := Option.some.inj h
        rw [← h2]
        intro ev hev
        rcases List.mem_append.mp hev with h1 | h1
        · exact hgood1 ev h1
        · rw [List.mem_singleton] at h1
          rw [h1]
          exact ⟨Or.inr (Or.inr rfl), fun hne => absurd rfl hne,
            fun _ => ⟨rfl, catchAllMsg e, rfl⟩⟩
    · rw [if_neg hlt] at h
      have h2 := Option.some.inj h
      rw [← h2]
      intro ev hev
      rcases List.mem_append.mp hev with h1 | h1
      · exact hgood ev h1
      · rw [List.mem_singleton] at h1
        rw [h1]
        exact ⟨Or.inr (Or.inl rfl),
          fun _ => ⟨1, rfl, by norm_num, le_refl 1⟩,
          fun hc => absurd hc hce⟩

/-- C9 (amended): every callback invocation of a terminated run carries a
status in `{"searching", "complete", "error"}`; the `"searching"` and
`"complete"` invocations carry a progress value in `[0, 1]`; the
`"error"` invocation carries the message but no progress entry at all. -/
theorem callback_contract (derive : List Nat → List Nat)
    (dispatch : Nat → List (Except String (List Nat)))
    (sw es : List Char) (count : Nat) (outDir : String) (bits devices : Nat)
    (entropy : List Nat) (fuel : Nat) (tr : SearchTrace)
    (h : search_vanity_addresses derive dispatch sw es count outDir bits devices entropy fuel
        = some tr) :
    ∀ ev ∈ tr.events, goodEvent ev := by
  have hemp : ∀ o : SearchOutcome,
      some ({ outcome := o, files := [], events := [] } : SearchTrace) = some tr →
      ∀ ev ∈ tr.events, goodEvent ev := by
    intro o ho ev hev
    have h2 := Option.some.inj ho
    rw [← h2] at hev
    exact absurd hev (List.not_mem_nil ev)
  unfold search_vanity_addresses at h
  by_cases h1 : sw = [] ∧ es = []
  · rw [if_pos h1] at h
    exact hemp _ h
  · rw [if_neg h1] at h
    by_cases h2 : check_character sw = false
    · rw [if_pos h2] at h
      exact hemp _ h
    · rw [if_neg h2] at h
      by_cases h3 : check_character es = false
      · rw [if_pos h3] at h
        exact hemp _ h
      · rw [if_neg h3] at h
        by_cases h4 : devices = 0
        · rw [if_pos h4] at h
          exact hemp _ h
        · rw [if_neg h4] at h
          exact searchLoop_events_good derive dispatch count bits (iterationBytes bits)
            outDir fuel 0 _ _ [] tr h (fun ev hev => absurd hev (List.not_mem_nil ev))

/-- A compute-API error message. -/
def boomMsg : String := "boom"

/-- One worker whose compute call always raises. -/
def dispatchBoom : Nat → List (Except String (List Nat)) :=
  fun _ => [Except.error boomMsg]

/-- Entropy that puts the counter just below `2^256`, so the first
advancement overflows and the catch-all error path runs. -/
def entropyMax : List Nat := List.replicate 31 255

/-- C9, as stated, is false for the `"error"` invocation: the error
callback is invoked with only `status` and `error` entries — no
`progress` key at all — as this concrete run ending in an
`increase_key32` overflow shows. -/
theorem claim_C9_counterexample :
    search_vanity_addresses deriveId dispatchBoom swA [] 1 "out" 8 1 entropyMax 1 =
      some { outcome := SearchOutcome.failure overflowMsg
             files := []
             events := [{ status := statusSearching,
                          progress := some (((0 : Nat) : ℚ) / ((1 : Nat) : ℚ)), error := none },
                        { status := statusError, progress := none,
                          error := some overflowMsg }] } := by
  rfl

/-- C9 witness: the contract at a concrete completed run's event. -/
theorem callback_contract_witness :
    goodEvent { status := statusComplete, progress := some 1, error := none } :=
  callback_contract deriveId dispatchOneFound swA [] 0 "out" 8 1 (List.replicate 31 0) 1
    { outcome := SearchOutcome.success [] 0, files := [],
      events := [{ status := statusComplete, progress := some 1, error := none }] }
    (by decide)
    { status := statusComplete, progress := some 1, error := none }
    (List.mem_singleton.mpr rfl)
